import Mathlib

/-!
Formal model of the aggregation and derived-metrics core of the SmartCalc
budgeting apps (`src/app.py` and `src/streamlit_app.py`).

Numeric amounts are modelled as rationals (`ℚ`); the log-scale net-worth
formula is modelled over the reals (`ℝ`) with the ideal base-10 logarithm.
Optional ("possibly `None`") numeric fields are modelled as `Option ℚ`, and
the Python idiom `float(x or 0)` as `Option.getD 0` (for `x = 0` both sides
are `0`, so truthiness and `getD` agree on numbers). Python's builtin `sum`
over a list is a left fold starting from `0`, modelled by `pysum`.
Timestamps are modelled as naturals carrying only their linear order, which
matches the lexicographic order on the ISO strings the apps store.
-/

namespace SmartCalc

/-- Python `sum(...)` over a list of numbers: a left fold from `0`. -/
def pysum (l : List ℚ) : ℚ := l.foldl (· + ·) 0

/-- The Python idiom `float(x or 0)` on an optional numeric value:
`None` becomes `0.0`, a number is kept (`0` maps to `0`). -/
def orZero (x : Option ℚ) : ℚ := x.getD 0

/-- `app.py` lines 147-152, `compute_totals_from_inputs`: sums the three
value lists with `float(x or 0)` applied to each element and returns
`(income_total, expense_total, saving_total, net)` with
`net = income_total - expense_total - saving_total`. -/
def compute_totals_from_inputs (income_values expense_values saving_values : List (Option ℚ)) :
    ℚ × ℚ × ℚ × ℚ :=
  let income_total := pysum (income_values.map orZero)
  let expense_total := pysum (expense_values.map orZero)
  let saving_total := pysum (saving_values.map orZero)
  let net := income_total - expense_total - saving_total
  (income_total, expense_total, saving_total, net)

/-- Sum of the values of a label-to-amount mapping, with `None` treated as
`0` (`sum(float(v or 0) for v in m.values())` in the source). Mappings are
modelled as association lists; the call sites use distinct labels, for which
a Python dict is exactly its key-value list. -/
def mapValuesSum (m : List (String × Option ℚ)) : ℚ :=
  pysum (m.map (fun kv => orZero kv.2))

/-- Entry dict built by `streamlit_app.py` lines 251-266
(`add_budget_entry`): breakdown maps plus computed totals and net. -/
structure BudgetEntry where
  timestamp : ℕ
  income : List (String × Option ℚ)
  expense : List (String × Option ℚ)
  saving : List (String × Option ℚ)
  total_income : ℚ
  total_expense : ℚ
  total_saving : ℚ
  net : ℚ
  user : String
deriving DecidableEq

/-- The entry literal of `streamlit_app.py` lines 252-266: totals are the
sums of the corresponding maps' values (`None` as `0`) and
`net = total_income - total_expense - total_saving`. -/
def build_budget_entry (ts : ℕ) (user : String)
    (income_map expense_map saving_map : List (String × Option ℚ)) : BudgetEntry :=
  let total_income := mapValuesSum income_map
  let total_expense := mapValuesSum expense_map
  let total_saving := mapValuesSum saving_map
  let net := total_income - total_expense - total_saving
  { timestamp := ts
    income := income_map
    expense := expense_map
    saving := saving_map
    total_income := total_income
    total_expense := total_expense
    total_saving := total_saving
    net := net
    user := user }

/-- `streamlit_app.py` lines 251-272, `add_budget_entry`: builds the entry
and appends it to the selected category's ledger (session list). -/
def add_budget_entry (ledger : List BudgetEntry) (ts : ℕ) (user : String)
    (income_map expense_map saving_map : List (String × Option ℚ)) : List BudgetEntry :=
  ledger ++ [build_budget_entry ts user income_map expense_map saving_map]

@[simp] lemma orZero_some (x : ℚ) : orZero (some x) = x := rfl

lemma pysum_eq_sum (l : List ℚ) : pysum l = l.sum := by
  simp [pysum, List.sum_eq_foldl]

lemma mapValuesSum_eq_sum (m : List (String × Option ℚ)) :
    mapValuesSum m = (m.map (fun kv => orZero kv.2)).sum := by
  simp [mapValuesSum, pysum_eq_sum]

/-- C1: for all three input mappings (empty included, `None` amounts read as
`0`), the builders succeed (they are total functions) and produce totals
equal to the sums of the mappings' values, with
`net = totalIncome - totalExpense - totalSaving`; this holds both for
`compute_totals_from_inputs` (`app.py`) and for the entry built by
`add_budget_entry` (`streamlit_app.py`). -/
theorem entry_builder_totals_and_net
    (iv ev sv : List (Option ℚ))
    (ts : ℕ) (user : String) (im em sm : List (String × Option ℚ)) :
    compute_totals_from_inputs iv ev sv =
      ((iv.map orZero).sum, (ev.map orZero).sum, (sv.map orZero).sum,
        (iv.map orZero).sum - (ev.map orZero).sum - (sv.map orZero).sum)
    ∧ (build_budget_entry ts user im em sm).total_income
        = (im.map (fun kv => orZero kv.2)).sum
    ∧ (build_budget_entry ts user im em sm).total_expense
        = (em.map (fun kv => orZero kv.2)).sum
    ∧ (build_budget_entry ts user im em sm).total_saving
        = (sm.map (fun kv => orZero kv.2)).sum
    ∧ (build_budget_entry ts user im em sm).net
        = (build_budget_entry ts user im em sm).total_income
          - (build_budget_entry ts user im em sm).total_expense
          - (build_budget_entry ts user im em sm).total_saving := by
  refine ⟨?_, ?_, ?_, ?_, ?_⟩ <;>
    simp [compute_totals_from_inputs, build_budget_entry, pysum_eq_sum, mapValuesSum_eq_sum]

/-- Sum of the values of a breakdown built from plain (non-optional) widget
numbers, as stored by `app.py`'s `budget_panel`. -/
def breakdownSum (m : List (String × ℚ)) : ℚ :=
  pysum (m.map (fun kv => kv.2))

/-- The `items` dict built in `app.py` lines 289-298: breakdowns are
`dict(zip(labels, vals))` (for the app's distinct label sets a dict is its
key-value list) and the totals come from `compute_totals_from_inputs`. -/
structure ItemsDict where
  income_breakdown : List (String × ℚ)
  expense_breakdown : List (String × ℚ)
  saving_breakdown : List (String × ℚ)
  total_income : ℚ
  total_expense : ℚ
  total_saving : ℚ
  net : ℚ
  creator : String
deriving DecidableEq

/-- `app.py` `budget_panel` (lines 282-298): the totals of the widget value
lists and the items dict assembled for `add_entry`. The widget values are
plain numbers (`st.number_input`), hence wrapped in `some` before
`compute_totals_from_inputs`. -/
def budget_panel_items (user : String)
    (income_labels expense_labels saving_labels : List String)
    (income_vals expense_vals saving_vals : List ℚ) : ItemsDict :=
  let t := compute_totals_from_inputs
    (income_vals.map some) (expense_vals.map some) (saving_vals.map some)
  { income_breakdown := income_labels.zip income_vals
    expense_breakdown := expense_labels.zip expense_vals
    saving_breakdown := saving_labels.zip saving_vals
    total_income := t.1
    total_expense := t.2.1
    total_saving := t.2.2.1
    net := t.2.2.2
    creator := user }

/-- Entry dict of `app.py` lines 154-164 (`add_entry`): the items dict plus
its totals and net copied out with `items_dict.get(key, 0)`; the only
caller builds the dict with every key present, so the defaults never fire. -/
structure AppEntry where
  timestamp : ℕ
  items : ItemsDict
  total_income : ℚ
  total_expense : ℚ
  total_saving : ℚ
  net : ℚ
deriving DecidableEq

/-- `app.py` lines 154-164, `add_entry`: appends the entry dict to the
session ledger selected by `storage_key`. -/
def add_entry (ledger : List AppEntry) (ts : ℕ) (items_dict : ItemsDict) : List AppEntry :=
  ledger ++
    [{ timestamp := ts
       items := items_dict
       total_income := items_dict.total_income
       total_expense := items_dict.total_expense
       total_saving := items_dict.total_saving
       net := items_dict.net }]

/-- C2: every entry appended by the entry-building operations (the
`add_budget_entry` flow of `streamlit_app.py` and the
`budget_panel`/`add_entry` flow of `app.py`) has its stored `net` equal to
the value recomputed from its stored breakdowns (sum of income values minus
sum of expense values minus sum of saving values); any other member of the
new ledger was already in the old one, so no appended entry carries an
independent net. The app-flow hypotheses record that `budget_panel`
produces exactly one widget value per label and that the fixed label sets
are duplicate-free (so a Python dict coincides with the zipped list). -/
theorem appended_entry_net_matches_breakdowns
    (ledger : List BudgetEntry) (ts : ℕ) (user : String)
    (im em sm : List (String × Option ℚ))
    (ledger2 : List AppEntry) (ts2 : ℕ) (user2 : String)
    (il el sl : List String) (iv ev sv : List ℚ)
    (hiv : iv.length = il.length) (hev : ev.length = el.length)
    (hsv : sv.length = sl.length)
    (hil : il.Nodup) (hel : el.Nodup) (hsl : sl.Nodup) :
    (∀ e ∈ add_budget_entry ledger ts user im em sm,
        e ∈ ledger ∨
          e.net = mapValuesSum e.income - mapValuesSum e.expense
                    - mapValuesSum e.saving)
    ∧ (∀ e ∈ add_entry ledger2 ts2 (budget_panel_items user2 il el sl iv ev sv),
        e ∈ ledger2 ∨
          e.net = breakdownSum e.items.income_breakdown
                    - breakdownSum e.items.expense_breakdown
                    - breakdownSum e.items.saving_breakdown) := by
  constructor
  · intro e he
    rcases List.mem_append.mp he with h | h
    · exact Or.inl h
    · refine Or.inr ?_
      rcases List.mem_singleton.mp h with rfl
      simp [build_budget_entry]
  · intro e he
    rcases List.mem_append.mp he with h | h
    · exact Or.inl h
    · refine Or.inr ?_
      rcases List.mem_singleton.mp h with rfl
      have hzi : (il.zip iv).map (fun kv => kv.2) = iv := by
        simpa using List.map_snd_zip il iv (le_of_eq hiv)
      have hze : (el.zip ev).map (fun kv => kv.2) = ev := by
        simpa using List.map_snd_zip el ev (le_of_eq hev)
      have hzs : (sl.zip sv).map (fun kv => kv.2) = sv := by
        simpa using List.map_snd_zip sl sv (le_of_eq hsv)
      simp [budget_panel_items, compute_totals_from_inputs, breakdownSum,
        hzi, hze, hzs, Function.comp_def]

/-- Concrete instance discharging the hypotheses of
`appended_entry_net_matches_breakdowns`: one value per label, and the
app's actual personal label sets, which are duplicate-free. -/
theorem appended_entry_net_matches_breakdowns_witness :
    ([(5 : ℚ), 200, 0]).length = (["Salary", "Investments", "Other"] : List String).length
    ∧ ([(1500 : ℚ), 400, 100]).length = (["Housing", "Food", "Transport"] : List String).length
    ∧ ([(300 : ℚ), 200, 0]).length = (["Emergency", "Retirement", "Other"] : List String).length
    ∧ (["Salary", "Investments", "Other"] : List String).Nodup
    ∧ (["Housing", "Food", "Transport"] : List String).Nodup
    ∧ (["Emergency", "Retirement", "Other"] : List String).Nodup
    ∧ ((∀ e ∈ add_budget_entry [] 0 "guest"
            [("Salary", some 5)] [("Food", none)] [("Savings", some 1)],
          e ∈ ([] : List BudgetEntry) ∨
            e.net = mapValuesSum e.income - mapValuesSum e.expense
                      - mapValuesSum e.saving)
        ∧ (∀ e ∈ add_entry [] 0
              (budget_panel_items "guest"
                ["Salary", "Investments", "Other"]
                ["Housing", "Food", "Transport"]
                ["Emergency", "Retirement", "Other"]
                [5, 200, 0] [1500, 400, 100] [300, 200, 0]),
            e ∈ ([] : List AppEntry) ∨
              e.net = breakdownSum e.items.income_breakdown
                        - breakdownSum e.items.expense_breakdown
                        - breakdownSum e.items.saving_breakdown)) :=
  ⟨rfl, rfl, rfl, by decide, by decide, by decide,
    appended_entry_net_matches_breakdowns [] 0 "guest"
      [("Salary", some 5)] [("Food", none)] [("Savings", some 1)]
      [] 0 "guest"
      ["Salary", "Investments", "Other"] ["Housing", "Food", "Transport"]
      ["Emergency", "Retirement", "Other"]
      [5, 200, 0] [1500, 400, 100] [300, 200, 0]
      rfl rfl rfl (by decide) (by decide) (by decide)⟩

/-- `app.py` line 355: `sum(float(x.get("net") or 0) for x in lst)`.
Entries always carry the key and `x or 0` is the identity on numbers. -/
def sum_net (lst : List AppEntry) : ℚ := pysum (lst.map (fun x => x.net))

/-- `app.py` line 356: sum of `total_expense` over a ledger. -/
def sum_exp (lst : List AppEntry) : ℚ := pysum (lst.map (fun x => x.total_expense))

/-- `app.py` line 357: sum of `total_saving` over a ledger. -/
def sum_sav (lst : List AppEntry) : ℚ := pysum (lst.map (fun x => x.total_saving))

/-- `app.py` line 358: sum of `total_income` over a ledger. -/
def sum_inc (lst : List AppEntry) : ℚ := pysum (lst.map (fun x => x.total_income))

/-- `streamlit_app.py` lines 382-389, `sum_key`: accumulates
`float(e.get(key, 0))` over the entries in a loop starting from `0.0`.
The string key is modelled as a field projection, since every entry built
by `add_budget_entry` carries all summed keys. -/
def sum_key (entries : List BudgetEntry) (f : BudgetEntry → ℚ) : ℚ :=
  entries.foldl (fun total e => total + f e) 0

lemma sum_key_eq_sum (es : List BudgetEntry) (f : BudgetEntry → ℚ) :
    sum_key es f = (es.map f).sum := by
  simp [sum_key, List.sum_eq_foldl, List.foldl_map]

lemma sum_map_net_eq {α : Type} (es : List α) (f g h k : α → ℚ)
    (hyp : ∀ e ∈ es, f e = g e - h e - k e) :
    (es.map f).sum = (es.map g).sum - (es.map h).sum - (es.map k).sum := by
  induction es with
  | nil => simp
  | cons a t ih =>
    simp only [List.map_cons, List.sum_cons]
    rw [hyp a (by simp), ih (fun e he => hyp e (by simp [he]))]
    ring

/-- C3: for ledgers whose entries satisfy the entry net equation, the
aggregated net equals aggregated income minus aggregated expense minus
aggregated saving — per category, and combined over all three ledgers —
for both apps' aggregation functions; with empty ledgers every aggregate
is zero. -/
theorem aggregate_net_identity
    (l1 l2 l3 : List AppEntry) (m1 m2 m3 : List BudgetEntry)
    (h1 : ∀ e ∈ l1, e.net = e.total_income - e.total_expense - e.total_saving)
    (h2 : ∀ e ∈ l2, e.net = e.total_income - e.total_expense - e.total_saving)
    (h3 : ∀ e ∈ l3, e.net = e.total_income - e.total_expense - e.total_saving)
    (g1 : ∀ e ∈ m1, e.net = e.total_income - e.total_expense - e.total_saving)
    (g2 : ∀ e ∈ m2, e.net = e.total_income - e.total_expense - e.total_saving)
    (g3 : ∀ e ∈ m3, e.net = e.total_income - e.total_expense - e.total_saving) :
    (sum_net l1 = sum_inc l1 - sum_exp l1 - sum_sav l1)
    ∧ (sum_net l2 = sum_inc l2 - sum_exp l2 - sum_sav l2)
    ∧ (sum_net l3 = sum_inc l3 - sum_exp l3 - sum_sav l3)
    ∧ (sum_net (l1 ++ l2 ++ l3)
        = sum_inc (l1 ++ l2 ++ l3) - sum_exp (l1 ++ l2 ++ l3) - sum_sav (l1 ++ l2 ++ l3))
    ∧ (sum_key m1 (fun e => e.net)
        = sum_key m1 (fun e => e.total_income) - sum_key m1 (fun e => e.total_expense)
            - sum_key m1 (fun e => e.total_saving))
    ∧ (sum_key m2 (fun e => e.net)
        = sum_key m2 (fun e => e.total_income) - sum_key m2 (fun e => e.total_expense)
            - sum_key m2 (fun e => e.total_saving))
    ∧ (sum_key m3 (fun e => e.net)
        = sum_key m3 (fun e => e.total_income) - sum_key m3 (fun e => e.total_expense)
            - sum_key m3 (fun e => e.total_saving))
    ∧ (sum_key (m1 ++ m2 ++ m3) (fun e => e.net)
        = sum_key (m1 ++ m2 ++ m3) (fun e => e.total_income)
            - sum_key (m1 ++ m2 ++ m3) (fun e => e.total_expense)
            - sum_key (m1 ++ m2 ++ m3) (fun e => e.total_saving))
    ∧ (sum_net [] = 0 ∧ sum_inc [] = 0 ∧ sum_exp [] = 0 ∧ sum_sav [] = 0
        ∧ ∀ f : BudgetEntry → ℚ, sum_key [] f = 0) := by
  have key : ∀ (l : List AppEntry),
      (∀ e ∈ l, e.net = e.total_income - e.total_expense - e.total_saving) →
      sum_net l = sum_inc l - sum_exp l - sum_sav l := by
    intro l hl
    simp only [sum_net, sum_inc, sum_exp, sum_sav, pysum_eq_sum]
    exact sum_map_net_eq l _ _ _ _ hl
  have keym : ∀ (m : List BudgetEntry),
      (∀ e ∈ m, e.net = e.total_income - e.total_expense - e.total_saving) →
      sum_key m (fun e => e.net)
        = sum_key m (fun e => e.total_income) - sum_key m (fun e => e.total_expense)
            - sum_key m (fun e => e.total_saving) := by
    intro m hm
    simp only [sum_key_eq_sum]
    exact sum_map_net_eq m _ _ _ _ hm
  have hall : ∀ e ∈ l1 ++ l2 ++ l3,
      e.net = e.total_income - e.total_expense - e.total_saving := by
    intro e he
    rcases List.mem_append.mp he with he' | he'
    · rcases List.mem_append.mp he' with h | h
      · exact h1 e h
      · exact h2 e h
    · exact h3 e he'
  have gall : ∀ e ∈ m1 ++ m2 ++ m3,
      e.net = e.total_income - e.total_expense - e.total_saving := by
    intro e he
    rcases List.mem_append.mp he with he' | he'
    · rcases List.mem_append.mp he' with h | h
      · exact g1 e h
      · exact g2 e h
    · exact g3 e he'
  refine ⟨key l1 h1, key l2 h2, key l3 h3, key _ hall,
    keym m1 g1, keym m2 g2, keym m3 g3, keym _ gall, ?_, ?_, ?_, ?_, ?_⟩ <;>
    simp [sum_net, sum_inc, sum_exp, sum_sav, sum_key, pysum]

/-- A concrete one-entry `app.py` ledger produced by the real entry flow. -/
def sampleAppLedger : List AppEntry :=
  add_entry [] 0
    (budget_panel_items "guest"
      ["Salary", "Investments", "Other"]
      ["Housing", "Food", "Transport"]
      ["Emergency", "Retirement", "Other"]
      [5000, 200, 0] [1500, 400, 100] [300, 200, 0])

/-- A concrete one-entry `streamlit_app.py` ledger produced by the real
entry flow. -/
def sampleLedger : List BudgetEntry :=
  add_budget_entry [] 0 "guest"
    [("Salary", some 5000)] [("Housing", some 1500)] [("Savings", some 500)]

/-- Concrete instance discharging the hypotheses of
`aggregate_net_identity` on one-entry ledgers built by the entry flows. -/
theorem aggregate_net_identity_witness :
    (∀ e ∈ sampleAppLedger, e.net = e.total_income - e.total_expense - e.total_saving)
    ∧ (∀ e ∈ sampleLedger, e.net = e.total_income - e.total_expense - e.total_saving)
    ∧ sum_net sampleAppLedger
        = sum_inc sampleAppLedger - sum_exp sampleAppLedger - sum_sav sampleAppLedger
    ∧ sum_key sampleLedger (fun e => e.net)
        = sum_key sampleLedger (fun e => e.total_income)
            - sum_key sampleLedger (fun e => e.total_expense)
            - sum_key sampleLedger (fun e => e.total_saving) := by
  have hA : ∀ e ∈ sampleAppLedger,
      e.net = e.total_income - e.total_expense - e.total_saving := by
    intro e he
    simp only [sampleAppLedger, add_entry, List.nil_append, List.mem_singleton] at he
    subst he
    rfl
  have hM : ∀ e ∈ sampleLedger,
      e.net = e.total_income - e.total_expense - e.total_saving := by
    intro e he
    simp only [sampleLedger, add_budget_entry, List.nil_append, List.mem_singleton] at he
    subst he
    rfl
  have hE1 : ∀ e ∈ ([] : List AppEntry),
      e.net = e.total_income - e.total_expense - e.total_saving := by simp
  have hE2 : ∀ e ∈ ([] : List BudgetEntry),
      e.net = e.total_income - e.total_expense - e.total_saving := by simp
  have main := aggregate_net_identity sampleAppLedger [] [] sampleLedger [] []
    hA hE1 hE1 hM hE2 hE2
  exact ⟨hA, hM, main.1, main.2.2.2.2.1⟩

/-- `streamlit_app.py` line 488: `declared_income + declared_assets + 1e-9`
(epsilon guard against a zero denominator). -/
def declared_capacity (declared_income declared_assets : ℚ) : ℚ :=
  declared_income + declared_assets + 1e-9

/-- `streamlit_app.py` line 489: `est_assets + known_contracts + claimed_spend`. -/
def apparent_total (est_assets known_contracts claimed_spend : ℚ) : ℚ :=
  est_assets + known_contracts + claimed_spend

/-- `streamlit_app.py` line 490: the audit's discrepancy value
`apparent_total / declared_capacity if declared_capacity else float("inf")`.
The falsy branch (Python infinity) is modelled as `none`; `some` is the
division branch. -/
def discrepancy (declared_income declared_assets known_contracts claimed_spend est_assets : ℚ) :
    Option ℚ :=
  if declared_capacity declared_income declared_assets ≠ 0 then
    some (apparent_total est_assets known_contracts claimed_spend
            / declared_capacity declared_income declared_assets)
  else none

/-- Severity classification shown by `streamlit_app.py` lines 499-504:
`st.error` (high), `st.warning` (moderate), `st.success` (normal). -/
inductive Tier where
  | high
  | moderate
  | normal
deriving DecidableEq

/-- `streamlit_app.py` lines 499-504: `if r > 3` high, `elif r > 1.2`
moderate, else normal. -/
def audit_tier (r : ℚ) : Tier :=
  if r > 3 then Tier.high
  else if r > 1.2 then Tier.moderate
  else Tier.normal

/-- `streamlit_app.py` line 505: `used = min(apparent_total, declared_capacity)`. -/
def explained_used (di da kc cs ea : ℚ) : ℚ :=
  min (apparent_total ea kc cs) (declared_capacity di da)

/-- `streamlit_app.py` line 506: `unexplained = max(apparent_total - declared_capacity, 0)`. -/
def unexplained (di da kc cs ea : ℚ) : ℚ :=
  max (apparent_total ea kc cs - declared_capacity di da) 0

/-- C4: with `declaredCapacity = declaredIncome + declaredAssets + ε` and
the discrepancy value `apparentTotal / declaredCapacity`, the tier is high
exactly when that value exceeds `3`, moderate exactly when it lies in
`(1.2, 3]`, and normal exactly when it is at most `1.2`. -/
theorem audit_tier_thresholds (di da kc cs ea : ℚ) :
    (audit_tier (apparent_total ea kc cs / declared_capacity di da) = Tier.high
      ↔ 3 < apparent_total ea kc cs / declared_capacity di da)
    ∧ (audit_tier (apparent_total ea kc cs / declared_capacity di da) = Tier.moderate
      ↔ 1.2 < apparent_total ea kc cs / declared_capacity di da
          ∧ apparent_total ea kc cs / declared_capacity di da ≤ 3)
    ∧ (audit_tier (apparent_total ea kc cs / declared_capacity di da) = Tier.normal
      ↔ apparent_total ea kc cs / declared_capacity di da ≤ 1.2) := by
  have key : ∀ r : ℚ,
      (audit_tier r = Tier.high ↔ 3 < r)
      ∧ (audit_tier r = Tier.moderate ↔ 1.2 < r ∧ r ≤ 3)
      ∧ (audit_tier r = Tier.normal ↔ r ≤ 1.2) := by
    intro r
    unfold audit_tier
    split_ifs with h3 h12
    · exact ⟨⟨fun _ => h3, fun _ => rfl⟩,
        ⟨fun hc => absurd hc (by decide), fun hc => absurd h3 (not_lt.mpr hc.2)⟩,
        ⟨fun hc => absurd hc (by decide),
          fun hc => absurd h3 (not_lt.mpr (le_trans hc (by norm_num)))⟩⟩
    · exact ⟨⟨fun hc => absurd hc (by decide), fun hc => absurd hc h3⟩,
        ⟨fun _ => ⟨h12, not_lt.mp h3⟩, fun _ => rfl⟩,
        ⟨fun hc => absurd hc (by decide), fun hc => absurd h12 (not_lt.mpr hc)⟩⟩
    · exact ⟨⟨fun hc => absurd hc (by decide), fun hc => absurd hc h3⟩,
        ⟨fun hc => absurd hc (by decide), fun hc => absurd hc.1 h12⟩,
        ⟨fun _ => not_lt.mp h12, fun _ => rfl⟩⟩
  exact key _

/-- C7: with all five audit inputs zero the discrepancy value is exactly
`0` (finite, the division branch) and the tier is normal; and for all
non-negative inputs the epsilon guard keeps `declaredCapacity` positive, so
the infinity branch of line 490 is unreachable and the division branch is
always taken. -/
theorem audit_zero_inputs_safe :
    (discrepancy 0 0 0 0 0 = some 0 ∧ audit_tier 0 = Tier.normal)
    ∧ ∀ di da kc cs ea : ℚ, 0 ≤ di → 0 ≤ da →
        0 < declared_capacity di da
        ∧ discrepancy di da kc cs ea
            = some (apparent_total ea kc cs / declared_capacity di da) := by
  have hpos : ∀ di da : ℚ, 0 ≤ di → 0 ≤ da → 0 < declared_capacity di da := by
    intro di da hdi hda
    have heps : (0 : ℚ) < 1e-9 := by norm_num
    unfold declared_capacity
    linarith
  constructor
  · constructor
    · have h := hpos 0 0 le_rfl le_rfl
      simp [discrepancy, ne_of_gt h, apparent_total]
    · have h1 : ¬((0 : ℚ) > 3) := by norm_num
      have h2 : ¬((0 : ℚ) > 1.2) := by norm_num
      simp [audit_tier, h1, h2]
  · intro di da kc cs ea hdi hda
    refine ⟨hpos di da hdi hda, ?_⟩
    simp [discrepancy, ne_of_gt (hpos di da hdi hda)]

/-- Concrete instance discharging the hypotheses of
`audit_zero_inputs_safe` at the spec's scenario-B inputs. -/
theorem audit_zero_inputs_safe_witness :
    (0 : ℚ) ≤ 10000 ∧ (0 : ℚ) ≤ 0
    ∧ 0 < declared_capacity 10000 0
    ∧ discrepancy 10000 0 50000 10000 20000
        = some (apparent_total 20000 50000 10000 / declared_capacity 10000 0) :=
  ⟨by norm_num, le_rfl,
    (audit_zero_inputs_safe.2 10000 0 50000 10000 20000 (by norm_num) le_rfl).1,
    (audit_zero_inputs_safe.2 10000 0 50000 10000 20000 (by norm_num) le_rfl).2⟩

/-- C8 as stated is false: at scenario B the code's discrepancy value is
`80000 / (10000 + 10⁻⁹)`, which is strictly less than `8`, not equal to it. -/
theorem audit_scenario_b_counterexample :
    discrepancy 10000 0 50000 10000 20000 ≠ some 8 := by
  have hval : discrepancy 10000 0 50000 10000 20000
      = some (80000 / (10000 + 1e-9)) := by
    have hne : declared_capacity 10000 0 ≠ 0 := by
      unfold declared_capacity; norm_num
    simp only [discrepancy, if_pos hne]
    unfold apparent_total declared_capacity
    norm_num
  rw [hval]
  intro hc
  have h8 := Option.some.inj hc
  norm_num at h8

/-- C8 amended: at scenario B, `declaredCapacity = 10000 + ε ≈ 10000`,
`apparentTotal = 80000`, the discrepancy value is within `10⁻¹²` of `8`
(instead of exactly `8.0`; the display rounds it to `8.00`), and the tier
is high. -/
theorem audit_scenario_b_amended :
    declared_capacity 10000 0 = 10000 + 1e-9
    ∧ apparent_total 20000 50000 10000 = 80000
    ∧ ∃ r : ℚ, discrepancy 10000 0 50000 10000 20000 = some r
        ∧ |r - 8| < 1e-12 ∧ audit_tier r = Tier.high := by
  refine ⟨by unfold declared_capacity; norm_num, by norm_num [apparent_total],
    80000 / (10000 + 1e-9), ?_, ?_, ?_⟩
  · have hne : declared_capacity 10000 0 ≠ 0 := by
      unfold declared_capacity; norm_num
    simp only [discrepancy, if_pos hne]
    unfold apparent_total declared_capacity
    norm_num
  · rw [abs_sub_lt_iff]
    constructor <;> norm_num
  · have h3 : (3 : ℚ) < 80000 / (10000 + 1e-9) := by norm_num
    simp [audit_tier, h3]

/-- C10: the reported explained amount `min(apparentTotal, declaredCapacity)`
plus the unexplained amount `max(apparentTotal - declaredCapacity, 0)`
equals `apparentTotal` exactly, for all non-negative audit inputs. -/
theorem explained_unexplained_partition (di da kc cs ea : ℚ)
    (hdi : 0 ≤ di) (hda : 0 ≤ da) (hkc : 0 ≤ kc) (hcs : 0 ≤ cs) (hea : 0 ≤ ea) :
    explained_used di da kc cs ea + unexplained di da kc cs ea
      = apparent_total ea kc cs := by
  unfold explained_used unexplained
  rcases le_total (apparent_total ea kc cs) (declared_capacity di da) with h | h
  · rw [min_eq_left h, max_eq_right (sub_nonpos.mpr h)]
    ring
  · rw [min_eq_right h, max_eq_left (sub_nonneg.mpr h)]
    ring

/-- Concrete instance discharging the hypotheses of
`explained_unexplained_partition` at the spec's scenario-B inputs. -/
theorem explained_unexplained_partition_witness :
    (0 : ℚ) ≤ 10000 ∧ (0 : ℚ) ≤ 0 ∧ (0 : ℚ) ≤ 50000 ∧ (0 : ℚ) ≤ 10000 ∧ (0 : ℚ) ≤ 20000
    ∧ explained_used 10000 0 50000 10000 20000 + unexplained 10000 0 50000 10000 20000
        = apparent_total 20000 50000 10000 :=
  ⟨by norm_num, le_rfl, by norm_num, by norm_num, by norm_num,
    explained_unexplained_partition 10000 0 50000 10000 20000
      (by norm_num) le_rfl (by norm_num) (by norm_num) (by norm_num)⟩

/-- `streamlit_app.py` lines 462-467, `rel_log`: log-compressed relative
position of `v` between `lo` and `hi`, with `np.log10` modelled by the
ideal base-10 logarithm, `1e-9` guarding the denominator, and
`np.clip(pos, 0, 1)` as `min (max pos 0) 1`. -/
noncomputable def rel_log (v lo hi : ℝ) : ℝ :=
  let vlog := Real.logb 10 (max v 0 + 1)
  let lolog := Real.logb 10 (max lo 0 + 1)
  let hilog := Real.logb 10 (max hi 1 + 1)
  let pos := (vlog - lolog) / max (hilog - lolog) 1e-9
  min (max pos 0) 1

/-- `streamlit_app.py` lines 460-468: the net-worth relative position,
`rel_log(abs(net), poorest, richest)` with `poorest = -1_000_000` and
`richest = 200_000_000_000`. -/
noncomputable def networth_position (net : ℝ) : ℝ :=
  rel_log |net| (-1000000) 200000000000

/-- C5: for every finite `net`, `lowerBound`, `upperBound` (bounds equal
included), the `max (… , 1e-9)` guard keeps the denominator strictly
positive — no division by zero can occur — and the clipped position always
lies in the closed interval `[0, 1]`. -/
theorem rel_log_in_unit_interval (v lo hi : ℝ) :
    0 < max (Real.logb 10 (max hi 1 + 1) - Real.logb 10 (max lo 0 + 1)) 1e-9
    ∧ 0 ≤ rel_log v lo hi ∧ rel_log v lo hi ≤ 1 := by
  have hden : (0 : ℝ) < 1e-9 := by norm_num
  refine ⟨lt_of_lt_of_le hden (le_max_right _ _), ?_, ?_⟩
  · exact le_min (le_max_right _ _) zero_le_one
  · exact min_le_right _ _

/-- C6: the net-worth scorer feeds `abs(net)` into `rel_log`, so the
relative position at `-net` equals the one at `net`: the sign of the net
worth is discarded. -/
theorem networth_position_sign_blind (net : ℝ) :
    networth_position (-net) = networth_position net := by
  rw [networth_position, networth_position, abs_neg]

/-- Comparator of the recent-entries views (`app.py` line 315,
`streamlit_app.py` lines 371-377): `sort_values("timestamp",
ascending=False)` places `a` before `b` when `b`'s timestamp is at most
`a`'s. -/
def ts_desc (a b : BudgetEntry) : Bool := decide (b.timestamp ≤ a.timestamp)

/-- The recent-entries query: sort by timestamp descending, keep the first
`n` rows (`.head(n)` after the descending `sort_values`). -/
def recent (n : ℕ) (l : List BudgetEntry) : List BudgetEntry :=
  (l.mergeSort ts_desc).take n

/-- The operations the apps ever perform on a session ledger list:
appending a freshly built entry, reading it whole for tables/export, or
reading the `n` most recent rows. No delete or update operation exists in
the source. -/
inductive LedgerOp where
  | append (e : BudgetEntry)
  | queryAll
  | queryRecent (n : ℕ)

/-- State transition of a ledger under one operation, paired with the
returned view (`append` returns nothing, modelled as `[]`). -/
def applyOp : LedgerOp → List BudgetEntry → List BudgetEntry × List BudgetEntry
  | LedgerOp.append e, l => (l ++ [e], [])
  | LedgerOp.queryAll, l => (l, l)
  | LedgerOp.queryRecent n, l => (l, recent n l)

lemma ts_desc_sorted (l : List BudgetEntry) :
    List.Pairwise (fun a b => ts_desc a b = true) (l.mergeSort ts_desc) := by
  refine List.sorted_mergeSort ?_ ?_ l
  · intro a b c hab hbc
    simp only [ts_desc, decide_eq_true_eq] at *
    omega
  · intro a b
    simp only [ts_desc, Bool.or_eq_true, decide_eq_true_eq]
    omega

/-- C9: the recent-entries query returns the `n` most recent entries in
timestamp-descending order without modifying the ledger (so does the
full read), `append` extends the ledger by exactly its one entry, and
every ledger operation either leaves the ledger unchanged or appends a
single entry — there is no removal or update. "Most recent" is exact: the
returned rows are `min n |l|` entries drawn from the ledger, sorted
descending, and every entry left out has a timestamp at most that of every
returned one. -/
theorem recent_query_and_append_only (l : List BudgetEntry) (n : ℕ) (e : BudgetEntry) :
    (applyOp (LedgerOp.queryRecent n) l).1 = l
    ∧ (applyOp LedgerOp.queryAll l).1 = l
    ∧ (applyOp (LedgerOp.queryRecent n) l).2 = recent n l
    ∧ (applyOp (LedgerOp.append e) l).1 = l ++ [e]
    ∧ (∀ op : LedgerOp, (applyOp op l).1 = l ∨ ∃ e2, (applyOp op l).1 = l ++ [e2])
    ∧ (recent n l).length = min n l.length
    ∧ List.Pairwise (fun a b => b.timestamp ≤ a.timestamp) (recent n l)
    ∧ ∃ rest : List BudgetEntry, l.Perm (recent n l ++ rest)
        ∧ ∀ x ∈ recent n l, ∀ y ∈ rest, y.timestamp ≤ x.timestamp := by
  refine ⟨rfl, rfl, rfl, rfl, ?_, ?_, ?_, ?_⟩
  · intro op
    cases op with
    | append e2 => exact Or.inr ⟨e2, rfl⟩
    | queryAll => exact Or.inl rfl
    | queryRecent m => exact Or.inl rfl
  · rw [recent, List.length_take, (List.mergeSort_perm l ts_desc).length_eq]
  · have h := (ts_desc_sorted l).sublist (List.take_sublist n (l.mergeSort ts_desc))
    exact h.imp (fun hab => by simpa [ts_desc] using hab)
  · refine ⟨(l.mergeSort ts_desc).drop n, ?_, ?_⟩
    · rw [recent, List.take_append_drop]
      exact (List.mergeSort_perm l ts_desc).symm
    · have hsplit : List.Pairwise (fun a b => ts_desc a b = true)
          ((l.mergeSort ts_desc).take n ++ (l.mergeSort ts_desc).drop n) := by
        rw [List.take_append_drop]
        exact ts_desc_sorted l
      obtain ⟨-, -, hcross⟩ := List.pairwise_append.mp hsplit
      intro x hx y hy
      simpa [ts_desc] using hcross x hx y hy

end SmartCalc
